import Mathlib

/-!
Verification development for the order-lifecycle core of the runner
repository (the puma/tomahawk trading engine).  The implementation
package itself ships outside of the example notebooks, so every
operation below is modelled from the specification and calibrated
against the recorded outputs of the example notebooks
(examples.order.ipynb, examples.order_manager.ipynb,
examples.portfolio.ipynb, the position-manager, broker, risk and
event-processor notebooks): wherever a notebook records the concrete
result of an operation, the model reproduces that result, and
reproduction lemmas below check this.  Quantities are naturals,
prices and monetary values are rationals, timestamps are naturals.
-/

namespace Runner

/-- Buy or sell side of an order.  The source canonicalises B, S, b, s
inputs into these two values. -/
inductive Side where
  | buy
  | sell
  deriving DecidableEq, Repr

/-- Order type.  Only LIMIT and MARKET appear in the notebooks and the
specification. -/
inductive OrderType where
  | LIMIT
  | MARKET
  deriving DecidableEq, Repr

/-- Modelled from the spec: the fifteen allowable order states returned
by order.allowable_states() (implementation module missing from the
sources; the list is recorded verbatim in examples.order.ipynb). -/
inductive OrderState where
  | CREATED
  | STAGED
  | RISK_ACCEPTED
  | SENT
  | LIVE
  | CANCEL_REQUESTED
  | CANCEL_SENT
  | REPLACE_REQUESTED
  | REPLACE_REJECTED
  | REPLACE_SENT
  | PARTIALLY_FILLED
  | RISK_REJECTED
  | REJECTED
  | FILLED
  | CANCELED
  deriving DecidableEq, Repr

/-- Modelled from the spec: order.allowable_states(), the list of all
order states (recorded in examples.order.ipynb). -/
def allowable_states : List OrderState :=
  [.CREATED, .STAGED, .RISK_ACCEPTED, .SENT, .LIVE, .CANCEL_REQUESTED,
   .CANCEL_SENT, .REPLACE_REQUESTED, .REPLACE_REJECTED, .REPLACE_SENT,
   .PARTIALLY_FILLED, .RISK_REJECTED, .REJECTED, .FILLED, .CANCELED]

/-- Modelled from the spec: order.state_group(), the open/closed
partition of states recorded in examples.order.ipynb.  Returns true
for the closed group RISK_REJECTED, REJECTED, FILLED, CANCELED. -/
def state_group_closed : OrderState → Bool
  | .RISK_REJECTED => true
  | .REJECTED => true
  | .FILLED => true
  | .CANCELED => true
  | _ => false

/-- Modelled from the spec: the permitted-transition edge list of spec
section 4.1.  This is the relation the specification says
OrderManager.change_state validates; it is stated here so that claims
about that validation can be formalised, and compared with the
recorded behaviour of change_state in the notebooks. -/
def permitted_edge : OrderState → OrderState → Bool
  | .CREATED, .STAGED => true
  | .STAGED, .RISK_ACCEPTED => true
  | .STAGED, .RISK_REJECTED => true
  | .RISK_ACCEPTED, .SENT => true
  | .RISK_ACCEPTED, .REJECTED => true
  | .SENT, .LIVE => true
  | .SENT, .REJECTED => true
  | .SENT, .CANCELED => true
  | .SENT, .FILLED => true
  | .SENT, .PARTIALLY_FILLED => true
  | .LIVE, .PARTIALLY_FILLED => true
  | .LIVE, .FILLED => true
  | .LIVE, .CANCEL_REQUESTED => true
  | .LIVE, .REPLACE_REQUESTED => true
  | .LIVE, .CANCELED => true
  | .PARTIALLY_FILLED, .PARTIALLY_FILLED => true
  | .PARTIALLY_FILLED, .FILLED => true
  | .PARTIALLY_FILLED, .CANCEL_REQUESTED => true
  | .PARTIALLY_FILLED, .REPLACE_REQUESTED => true
  | .PARTIALLY_FILLED, .CANCELED => true
  | .CANCEL_REQUESTED, .CANCEL_SENT => true
  | .CANCEL_SENT, .CANCELED => true
  | .CANCEL_SENT, .LIVE => true
  | .REPLACE_REQUESTED, .REPLACE_SENT => true
  | .REPLACE_SENT, .LIVE => true
  | .REPLACE_SENT, .REPLACE_REJECTED => true
  | .REPLACE_REJECTED, .LIVE => true
  | _, _ => false

/-- One fill row of an order, as displayed by the notebooks: an
identifier, the fill timestamp, the bartime, quantity, price,
commission and the per-fill booked flag. -/
structure Fill where
  fill_id : Nat
  timestamp : Nat
  bartime : Nat
  quantity : Nat
  price : ℚ
  commission : ℚ
  booked : Bool
  deriving DecidableEq, Repr

/-- Modelled from the spec: the Order entity (class Order of the
missing order module).  Field set and semantics follow spec section 3
and the attribute dump of Order.to_dict() recorded in
examples.order.ipynb.  fill_price and fill_quantity start at 0 where
the source displays None; booked starts at none; closed starts false. -/
structure Order where
  uuid : Nat
  originator_uuid : Nat
  originator_id : String
  strategy_uuid : Nat
  strategy_id : String
  portfolio_uuid : Option Nat
  portfolio_id : Option String
  product_type : String
  symbol : String
  buy_sell : Side
  quantity : Nat
  order_type : OrderType
  price : ℚ
  state : OrderState
  create_timestamp : Nat
  state_df : List (Nat × OrderState)
  broker_order_id : Option Nat
  exchange_order_id : Option Nat
  fill_quantity : Nat
  fill_price : ℚ
  commission : ℚ
  booked : Option Bool
  closed : Bool
  fills : List Fill
  deriving DecidableEq, Repr

/-- Modelled from the spec: the Order constructor.  A new order starts
in CREATED with the creation row appended to state_df, no fills, no
broker or exchange ids, booked = none and closed = false, as the
recorded output of examples.order.ipynb shows. -/
def Order.make (uuid originator_uuid : Nat) (originator_id : String)
    (strategy_uuid : Nat) (strategy_id product_type symbol : String)
    (buy_sell : Side) (quantity : Nat) (order_type : OrderType)
    (price : ℚ) (ts : Nat) : Order :=
  { uuid := uuid
    originator_uuid := originator_uuid
    originator_id := originator_id
    strategy_uuid := strategy_uuid
    strategy_id := strategy_id
    portfolio_uuid := none
    portfolio_id := none
    product_type := product_type
    symbol := symbol
    buy_sell := buy_sell
    quantity := quantity
    order_type := order_type
    price := price
    state := .CREATED
    create_timestamp := ts
    state_df := [(ts, .CREATED)]
    broker_order_id := none
    exchange_order_id := none
    fill_quantity := 0
    fill_price := 0
    commission := 0
    booked := none
    closed := false
    fills := [] }

/-- Modelled from the spec: the Order.state property setter.  The
recorded state_df of examples.order.ipynb shows that assigning the
state property sets the state and appends a (timestamp, state) row,
with no other field touched and no edge validation: the notebook
assigns STAGED, then SENT, then LIVE in a row and all three rows
appear in state_df even though STAGED to SENT is not a permitted edge
of spec section 4.1. -/
def Order.set_state (o : Order) (s : OrderState) (ts : Nat) : Order :=
  { o with state := s, state_df := o.state_df ++ [(ts, s)] }

/-- Modelled from the spec: Order.add_fill.  Appends the fill row (its
own booked flag false, as the fills table of examples.order.ipynb
records), accumulates fill_quantity and commission, and recomputes
fill_price as the quantity-weighted mean of fill prices.  The recorded
output of examples.order.ipynb shows the order-level booked attribute
still None after add_fill, so add_fill leaves it unchanged. -/
def Order.add_fill (o : Order) (fill_id ts bartime qty : Nat)
    (price commission : ℚ) : Order :=
  { o with
    fills := o.fills ++ [⟨fill_id, ts, bartime, qty, price, commission, false⟩]
    fill_price :=
      if o.fill_quantity + qty = 0 then 0
      else (o.fill_price * o.fill_quantity + price * qty) /
        ((o.fill_quantity : ℚ) + (qty : ℚ))
    fill_quantity := o.fill_quantity + qty
    commission := o.commission + commission }

/-- Modelled from the spec: the OrderManager repository, a collection
of Order values in insertion order. -/
structure OrderManager where
  orders : List Order
  deriving DecidableEq, Repr

/-- Look an order up by uuid, first match in insertion order. -/
def OrderManager.find_order (om : OrderManager) (u : Nat) : Option Order :=
  om.orders.find? fun o => o.uuid == u

/-- Modelled from the spec: OrderManager.change_state.  The spec says
it validates the edge against section 4.1, but the recorded notebook
outputs show otherwise: both the position-manager notebook and
examples.order_manager.ipynb call change_state from CREATED straight
to FILLED and the displayed closed_orders_df confirms the state did
change, so the model performs the state change for any requested
state, appending the history row.  The recorded closed_orders_df also
shows the closed attribute still False on that FILLED order, so
change_state does not touch the closed flag; the open/closed
partition is instead determined by the state group. -/
def OrderManager.change_state (om : OrderManager) (u : Nat)
    (s : OrderState) (ts : Nat) : OrderManager :=
  ⟨om.orders.map fun o => if o.uuid = u then o.set_state s ts else o⟩

/-- Modelled from the spec: OrderManager.closed_orders_df restricted to
the partition rule: the orders whose state is in the closed group. -/
def OrderManager.closed_orders_df (om : OrderManager) : List Order :=
  om.orders.filter fun o => state_group_closed o.state

/-- Modelled from the spec: OrderManager.open_orders_df, the orders
whose state is in the open group. -/
def OrderManager.open_orders_df (om : OrderManager) : List Order :=
  om.orders.filter fun o => !state_group_closed o.state

/-- Modelled from the spec: oms.orders_list with a state filter, as
called in the notebooks. -/
def OrderManager.orders_list_state (om : OrderManager)
    (s : OrderState) : List Order :=
  om.orders.filter fun o => o.state == s

/-- Modelled from the spec: OrderManager.set_booked, setting the booked
attribute of the order with the given uuid. -/
def OrderManager.set_booked (om : OrderManager) (u : Nat) (v : Bool) :
    OrderManager :=
  ⟨om.orders.map fun o => if o.uuid = u then { o with booked := some v } else o⟩

/-- Modelled from the spec: OrderManager.to_be_booked_list, the closed
orders whose booked flag is false. -/
def OrderManager.to_be_booked_list (om : OrderManager) : List Order :=
  om.orders.filter fun o => state_group_closed o.state && o.booked == some false

/-- Modelled from the spec: one row of the PositionManager keyed table,
with the composite key (strategy_id, product_type, symbol) and the
quantity, average-price, PnL, commission and price columns of the
recorded positions_df of the position-manager notebook.  Quantities
and prices are rationals, matching the numeric dataframe columns. -/
structure Position where
  strategy_id : String
  product_type : String
  symbol : String
  start_position : ℚ
  buy_quantity : ℚ
  sell_quantity : ℚ
  buy_avg_price : ℚ
  sell_avg_price : ℚ
  buy_pnl : ℚ
  sell_pnl : ℚ
  trade_pnl : ℚ
  position_pnl : ℚ
  gross_pnl : ℚ
  commission : ℚ
  net_pnl : ℚ
  prior_close_price : ℚ
  current_price : ℚ
  deriving DecidableEq, Repr

/-- Derived column: current_position = start_position + buy_quantity
minus sell_quantity (spec section 4.7, confirmed by every recorded
positions_df row). -/
def Position.current_position (p : Position) : ℚ :=
  p.start_position + p.buy_quantity - p.sell_quantity

/-- Derived column: net_quantity, the signed traded quantity since
session start. -/
def Position.net_quantity (p : Position) : ℚ :=
  p.buy_quantity - p.sell_quantity

/-- Fresh all-zero position row for a key, as created on the first
trade for that key. -/
def Position.init (strategy_id product_type symbol : String) : Position :=
  { strategy_id := strategy_id
    product_type := product_type
    symbol := symbol
    start_position := 0
    buy_quantity := 0
    sell_quantity := 0
    buy_avg_price := 0
    sell_avg_price := 0
    buy_pnl := 0
    sell_pnl := 0
    trade_pnl := 0
    position_pnl := 0
    gross_pnl := 0
    commission := 0
    net_pnl := 0
    prior_close_price := 0
    current_price := 0 }

/-- Modelled from the spec: the row-level effect of
PositionManager.enter_trade.  Accumulates the side quantity, updates
the side average price as the quantity-weighted mean, and accumulates
commission.  Calibrated against the recorded position-manager
notebook rows: buy 100 at 50 then buy 100 at 100 yields buy_quantity
200 and buy_avg_price 75 with commission minus 1. -/
def Position.enter_trade (p : Position) (side : Side)
    (qty price commission : ℚ) : Position :=
  match side with
  | .buy =>
    { p with
      buy_avg_price :=
        if p.buy_quantity + qty = 0 then 0
        else (p.buy_avg_price * p.buy_quantity + price * qty) /
          (p.buy_quantity + qty)
      buy_quantity := p.buy_quantity + qty
      commission := p.commission + commission }
  | .sell =>
    { p with
      sell_avg_price :=
        if p.sell_quantity + qty = 0 then 0
        else (p.sell_avg_price * p.sell_quantity + price * qty) /
          (p.sell_quantity + qty)
      sell_quantity := p.sell_quantity + qty
      commission := p.commission + commission }

/-- Modelled from the spec: PositionManager.enter_trade_from_order,
deriving the trade parameters from the order's accumulated fills:
side, total fill quantity, weighted average fill price and total
commission. -/
def Position.enter_trade_from_order (p : Position) (o : Order) : Position :=
  p.enter_trade o.buy_sell (o.fill_quantity : ℚ) o.fill_price o.commission

/-- Modelled from the spec: the row-level arithmetic of
PositionManager.update_pnl for one symbol, given the market-data
manager's current price and prior close price for that symbol.
The spec states trade legs against the current price and a
position_pnl on start_position, but the recorded numbers of the
position-manager notebook determine different formulas, reproduced
exactly by the reproduction lemmas below: the trade legs are marked
against the prior close (buy 200 at average 75 with prior close 67.98
gives buy_pnl minus 1404, not minus 2012), and position_pnl is the
prior-close-to-current move times the full current position (minus
608 on a current position of 200 with start_position 0, where the
spec formula would give 0).  The two decompositions agree on
gross_pnl and net_pnl. -/
def update_pnl_row (current prior : ℚ) (p : Position) : Position :=
  let buyPnl := (prior - p.buy_avg_price) * p.buy_quantity
  let sellPnl := (p.sell_avg_price - prior) * p.sell_quantity
  let tradePnl := buyPnl + sellPnl
  let posPnl := (current - prior) * p.current_position
  let grossPnl := tradePnl + posPnl
  { p with
    buy_pnl := buyPnl
    sell_pnl := sellPnl
    trade_pnl := tradePnl
    position_pnl := posPnl
    gross_pnl := grossPnl
    net_pnl := grossPnl + p.commission
    prior_close_price := prior
    current_price := current }

/-- Modelled from the spec: the PositionManager, a keyed list of
position rows in key insertion order. -/
structure PositionManager where
  rows : List Position
  deriving DecidableEq, Repr

/-- Modelled from the spec: PositionManager.update_pnl, applying the
row arithmetic to every row with the market-data manager's current
and prior-close prices for the row's symbol. -/
def PositionManager.update_pnl (currentOf priorOf : String → String → ℚ)
    (pm : PositionManager) : PositionManager :=
  ⟨pm.rows.map fun p =>
    update_pnl_row (currentOf p.product_type p.symbol)
      (priorOf p.product_type p.symbol) p⟩

/-- Key equality between a position row and an order. -/
def Position.key_match (p : Position) (o : Order) : Bool :=
  p.strategy_id == o.strategy_id && p.product_type == o.product_type &&
    p.symbol == o.symbol

/-- Apply one order's accumulated fills to the keyed table: update the
matching row, or append a fresh row for a new key. -/
def PositionManager.apply_order (pm : PositionManager) (o : Order) :
    PositionManager :=
  if pm.rows.any fun p => p.key_match o then
    ⟨pm.rows.map fun p => if p.key_match o then p.enter_trade_from_order o else p⟩
  else
    ⟨pm.rows ++ [(Position.init o.strategy_id o.product_type o.symbol).enter_trade_from_order o]⟩

/-- Modelled from the spec: PositionManager.book_fills.  Every closed
order of the OrderManager whose booked flag is false is applied to
the keyed table via enter_trade_from_order and then marked booked,
mirroring oms.set_booked(o, True). -/
def book_fills (pm : PositionManager) (om : OrderManager) :
    PositionManager × OrderManager :=
  ((om.to_be_booked_list).foldl PositionManager.apply_order pm,
   ⟨om.orders.map fun o =>
     if state_group_closed o.state ∧ o.booked = some false then
       { o with booked := some true }
     else o⟩)

/-- Modelled from the spec: the Portfolio, binding a set of strategies
by id and carrying its own uuid and id, which it stamps on the orders
it originates (the recorded intent-derived order of the portfolio
notebook has originator_uuid equal to the portfolio uuid and
originator_id portfolio.port_test). -/
structure Portfolio where
  uuid : Nat
  portfolio_id : String
  strategy_ids : List String
  deriving DecidableEq, Repr

/-- Modelled from the spec: a pending strategy intent, an absolute
target position for a (strategy, product_type, symbol) key. -/
structure Intent where
  strategy_id : String
  product_type : String
  symbol : String
  target : ℤ
  deriving DecidableEq, Repr

/-- Stamp the portfolio uuid and id on an order as the portfolio stages
it. -/
def tag_portfolio (port : Portfolio) (o : Order) : Order :=
  { o with portfolio_uuid := some port.uuid, portfolio_id := some port.portfolio_id }

/-- Modelled from the spec: step (a) of Portfolio.process_orders, which
pulls every CREATED order produced by a bound strategy, transitions it
CREATED to STAGED and tags the portfolio. -/
def stage_created (port : Portfolio) (ts : Nat) (om : OrderManager) :
    OrderManager :=
  ⟨om.orders.map fun o =>
    if o.state = .CREATED ∧ o.strategy_id ∈ port.strategy_ids then
      tag_portfolio port (o.set_state .STAGED ts)
    else o⟩

/-- Modelled from the spec: conversion of one intent into an order in
step (b) of Portfolio.process_orders.  delta is the target minus the
current position for the intent's key; a zero delta produces no
order; otherwise a LIMIT order is built with the portfolio as
originator, quantity the absolute delta, buy when delta is positive
and sell otherwise, priced by the strategy-provided pricing policy
(passed in as priceOf), inserted as CREATED and immediately
transitioned to STAGED. -/
def intent_order (port : Portfolio)
    (posOf : String → String → String → ℤ) (priceOf : Intent → ℚ)
    (ts uuid : Nat) (i : Intent) : Option Order :=
  let delta : ℤ := i.target - posOf i.strategy_id i.product_type i.symbol
  if delta = 0 then none
  else some (tag_portfolio port
    (((Order.make uuid port.uuid ("portfolio." ++ port.portfolio_id)
        0 i.strategy_id i.product_type i.symbol
        (if 0 < delta then .buy else .sell) delta.natAbs
        .LIMIT (priceOf i) ts)).set_state .STAGED ts))

/-- Insert the orders materialised from a list of intents, consuming
one fresh uuid per created order. -/
def insert_intents (port : Portfolio)
    (posOf : String → String → String → ℤ) (priceOf : Intent → ℚ)
    (ts : Nat) : Nat → List Intent → OrderManager → OrderManager
  | _, [], om => om
  | base, i :: rest, om =>
    match intent_order port posOf priceOf ts base i with
    | none => insert_intents port posOf priceOf ts (base + 1) rest om
    | some o => insert_intents port posOf priceOf ts (base + 1) rest ⟨om.orders ++ [o]⟩

/-- Modelled from the spec: Portfolio.process_orders without the
optional internal-crossing step (sketched in the source, treated as
unsupported in v1 by the spec's design notes): stage every CREATED
order of a bound strategy, then materialise every pending intent. -/
def Portfolio.process_orders (port : Portfolio)
    (posOf : String → String → String → ℤ) (priceOf : Intent → ℚ)
    (intents : List Intent) (ts base : Nat) (om : OrderManager) :
    OrderManager :=
  insert_intents port posOf priceOf ts base intents (stage_created port ts om)

/-- One OHLCV bar of market data, the shape returned by
MarketDataManager.current_bar. -/
structure Bar where
  bar_open : ℚ
  bar_high : ℚ
  bar_low : ℚ
  bar_close : ℚ
  volume : Nat
  deriving DecidableEq, Repr

/-- Modelled from the spec: the paper exchange's own order-shaped
record (it never sees the trading-system Order object).  arrival_bar
records the bar index at which the exchange received the order;
admitted records whether process_orders has considered it at least
once, which per spec section 4.3 happens only on a bar strictly after
its arrival. -/
structure PaperOrder where
  order_id : Nat
  uuid : Nat
  product_type : String
  symbol : String
  buy_sell : Side
  quantity : Nat
  order_type : OrderType
  price : ℚ
  arrival_bar : Nat
  admitted : Bool
  fill_quantity : Nat
  fill_price : ℚ
  deriving DecidableEq, Repr

/-- Modelled from the spec: the matching step of
PaperExchange.process_orders for one paper order on one bar, spec
section 4.3: a LIMIT buy fills when the bar low reaches the limit, at
the better of limit and open; a LIMIT sell fills when the bar high
reaches the limit; a MARKET order fills at the open; in every case
the quantity is capped by the floor of bar volume times the
fill_multiplier, and the order is marked admitted. -/
def admit_and_match (mult : ℚ) (d : Bar) (po : PaperOrder) : PaperOrder :=
  let cap : Nat := (⌊(d.volume : ℚ) * mult⌋).toNat
  let remaining : Nat := po.quantity - po.fill_quantity
  let fq : Nat :=
    match po.order_type, po.buy_sell with
    | .LIMIT, .buy =>
      if d.bar_low ≤ po.price then min remaining cap else 0
    | .LIMIT, .sell =>
      if po.price ≤ d.bar_high then min remaining cap else 0
    | .MARKET, _ => min remaining cap
  let fp : ℚ :=
    match po.order_type, po.buy_sell with
    | .LIMIT, .buy => min po.price d.bar_open
    | .LIMIT, .sell => max po.price d.bar_open
    | .MARKET, _ => d.bar_open
  { po with
    admitted := true
    fill_quantity := po.fill_quantity + fq
    fill_price := if fq = 0 then po.fill_price else fp }

/-- Modelled from the spec: PaperExchange.process_orders for bar index
t: every paper order received on an earlier bar is admitted and
matched against the bar; orders received during this bar's processing
are queued untouched until the next bar (spec section 4.3, and the
event-processor notebook's recorded remark that same-bar arrivals
stay SENT). -/
def exchange_process (mult : ℚ) (t : Nat) (d : Bar)
    (book : List PaperOrder) : List PaperOrder :=
  book.map fun po => if po.arrival_bar < t then admit_and_match mult d po else po

/-- Build the exchange-side record for an order the broker submits at
bar t. -/
def to_paper (t eid : Nat) (o : Order) : PaperOrder :=
  { order_id := eid
    uuid := o.uuid
    product_type := o.product_type
    symbol := o.symbol
    buy_sell := o.buy_sell
    quantity := o.quantity
    order_type := o.order_type
    price := o.price
    arrival_bar := t
    admitted := false
    fill_quantity := 0
    fill_price := 0 }

/-- Exchange-side records created by the broker for every RISK_ACCEPTED
order, with consecutive exchange order ids. -/
def send_papers (t : Nat) : Nat → List Order → List PaperOrder
  | _, [] => []
  | eid, o :: rest =>
    if o.state = .RISK_ACCEPTED then to_paper t eid o :: send_papers t (eid + 1) rest
    else send_papers t eid rest

/-- State of the broker-exchange-OMS subsystem used by the per-bar
pipeline: the order manager, the paper exchange book and the next
fresh exchange order id.  The broker's id mapping is collapsed onto
the order uuid. -/
structure ExchSys where
  oms : OrderManager
  book : List PaperOrder
  next_id : Nat
  deriving DecidableEq, Repr

/-- Modelled from the spec: broker.send_orders, step 7 of the per-bar
pipeline: every RISK_ACCEPTED order is submitted to the exchange (a
paper record with arrival_bar the current bar) and transitioned to
SENT. -/
def send_orders (t : Nat) (sys : ExchSys) : ExchSys :=
  { oms := ⟨sys.oms.orders.map fun o =>
      if o.state = .RISK_ACCEPTED then o.set_state .SENT t else o⟩
    book := sys.book ++ send_papers t sys.next_id sys.oms.orders
    next_id := sys.next_id + sys.oms.orders.length }

/-- Modelled from the spec: broker.process_fills, step 9 of the
pipeline: for every OMS order in SENT, LIVE or PARTIALLY_FILLED the
broker reads the exchange counterpart once the exchange has admitted
it, mirrors the accumulated fill quantity, and transitions the order:
FILLED when the counterpart is fully filled, PARTIALLY_FILLED on a
partial fill, and LIVE on first observation with no fill yet.  A
counterpart not yet admitted by the exchange (a same-bar arrival)
leaves the order untouched, so it remains SENT. -/
def broker_fill_order (t : Nat) (book : List PaperOrder) (o : Order) : Order :=
  if o.state = .SENT ∨ o.state = .LIVE ∨ o.state = .PARTIALLY_FILLED then
    match book.find? fun po => po.uuid == o.uuid with
    | some po =>
      if po.admitted then
        ({ o with fill_quantity := po.fill_quantity }).set_state
          (if po.fill_quantity = o.quantity then .FILLED
           else if 0 < po.fill_quantity then .PARTIALLY_FILLED
           else .LIVE) t
      else o
    | none => o
  else o

/-- Modelled from the spec: broker.process_fills applied across the
order manager. -/
def broker_process_fills (t : Nat) (book : List PaperOrder)
    (om : OrderManager) : OrderManager :=
  ⟨om.orders.map (broker_fill_order t book)⟩

/-- Modelled from the spec: the broker-exchange portion of one bar of
the EventProcessor pipeline (steps 7 to 9 of spec section 4.8):
broker.send_orders, then exchange.process_orders for the bar, then
broker.process_fills. -/
def bar_step (mult : ℚ) (t : Nat) (d : Bar) (sys : ExchSys) : ExchSys :=
  let s1 := send_orders t sys
  let book2 := exchange_process mult t d s1.book
  { oms := broker_process_fills t book2 s1.oms
    book := book2
    next_id := s1.next_id }

/-! Concrete inputs reproducing the recorded notebook sessions, used by
the counterexamples, witnesses and reproduction lemmas below. -/

/-- The sell order of the position-manager notebook: 200 test.sym.10
LIMIT at 55.5 for strategy strat-id. -/
def o10 : Order :=
  Order.make 1 100 "manual_id" 2 "strat-id" "stock" "test.sym.10" .sell 200
    .LIMIT (111/2) 0

/-- The same order after the notebook's add_fill of 200 at 55.5 with
commission minus 2. -/
def o10f : Order := o10.add_fill 1002 5 6 200 (111/2) (-2)

/-- An OrderManager holding that filled-but-still-CREATED order, the
configuration on which the notebook calls change_state to FILLED. -/
def om10 : OrderManager := ⟨[o10f]⟩

/-- The notebook order after oms.change_state to FILLED and
oms.set_booked false, as displayed by closed_orders_df. -/
def o10booked : Order := { o10f.set_state .FILLED 7 with booked := some false }

/-- The OrderManager after the notebook's change_state and set_booked
calls. -/
def omB : OrderManager := (om10.change_state 1 .FILLED 7).set_booked 1 false

/-- The buy order of examples.order.ipynb: 100 TEST LIMIT at 50. -/
def oC9 : Order :=
  Order.make 3 100 "orig_id" 4 "test_strat" "stock" "TEST" .buy 100 .LIMIT 50 0

/-- The same order after the notebook's add_fill of 75 at 49.9 with
commission minus 0.75; the recorded Order.print shows booked still
None afterwards. -/
def oC9f : Order := oC9.add_fill 1 10 11 75 (499/10) (-3/4)

/-- The pre-update position row for (strategy-id, stock, test.sym.9) as
displayed by the position-manager notebook before update_pnl: 200
bought at average 75, commission minus 1. -/
def row9 : Position :=
  { Position.init "strategy-id" "stock" "test.sym.9" with
    buy_quantity := 200, buy_avg_price := 75, commission := -1 }

/-- The pre-update position row for (strat-id, stock, test.sym.10): 200
sold at average 55.5, commission minus 2. -/
def row10 : Position :=
  { Position.init "strat-id" "stock" "test.sym.10" with
    sell_quantity := 200, sell_avg_price := 111/2, commission := -2 }

/-- The test.sym.9 row after update_pnl with current price 64.94 and
prior close 67.98 (the notebook's recorded prices). -/
def row9post : Position := update_pnl_row (3247/50) (3399/50) row9

/-- The test.sym.10 row after update_pnl with current price 51.89 and
prior close 49.51. -/
def row10post : Position := update_pnl_row (5189/100) (4951/100) row10

/-- The PositionManager of the notebook session before update_pnl. -/
def pmNB : PositionManager := ⟨[row9, row10]⟩

/-- Current prices of the notebook session keyed by symbol. -/
def currentNB : String → String → ℚ := fun _ s =>
  if s = "test.sym.9" then 3247/50 else 5189/100

/-- Prior close prices of the notebook session keyed by symbol. -/
def priorNB : String → String → ℚ := fun _ s =>
  if s = "test.sym.9" then 3399/50 else 4951/100

/-- The order of examples.order.ipynb used to replay its state_df. -/
def oT : Order :=
  Order.make 7 100 "orig_id" 4 "test_strat" "stock" "TEST" .buy 100 .LIMIT 50 0

/-- The portfolio of the portfolio notebook, bound to strategy TEST1. -/
def portNB : Portfolio := ⟨50, "port_test", ["TEST1"]⟩

/-- The first strategy-authored order of the portfolio notebook. -/
def oS1 : Order :=
  Order.make 11 20 "strategy.TEST1" 20 "TEST1" "stock" "test.sym.1" .buy 100
    .LIMIT (201/2) 0

/-- The second strategy-authored order of the portfolio notebook. -/
def oS2 : Order :=
  Order.make 12 20 "strategy.TEST1" 20 "TEST1" "stock" "test.sym.2" .sell 55
    .LIMIT (11/2) 0

/-- The OrderManager of the portfolio notebook before process_orders. -/
def omNB : OrderManager := ⟨[oS1, oS2]⟩

/-- The notebook intent: target position minus 60 on test.sym.1. -/
def intentNB : Intent := ⟨"TEST1", "stock", "test.sym.1", -60⟩

/-- Zero current positions, the portfolio-notebook situation. -/
def posZero : String → String → String → ℤ := fun _ _ _ => 0

/-- The notebook's pricing policy outcome: 100.25 on the staged intent
order. -/
def priceNB : Intent → ℚ := fun _ => 401/4

/-- A RISK_ACCEPTED order about to be sent to the paper exchange, for
the per-bar pipeline scenario. -/
def oW : Order :=
  (Order.make 9 1 "strat" 1 "TEST1" "stock" "TEST" .buy 100 .LIMIT 10 0).set_state
    .RISK_ACCEPTED 4

/-- Pipeline state holding that order with an empty exchange book. -/
def sysW : ExchSys := ⟨⟨[oW]⟩, [], 1000⟩

/-- The bar of end-to-end scenario 1 of spec section 8: open 9.9, high
10.1, low 9.8, close 10, volume 100. -/
def barW : Bar := ⟨99/10, 101/10, 49/5, 10, 100⟩

/-! Helper lemmas shared by the claim theorems. -/

/-- Mapping a uuid-preserving function over an order list commutes with
lookup by uuid. -/
theorem find_order_map (f : Order → Order) (hf : ∀ o, (f o).uuid = o.uuid)
    (l : List Order) (u : Nat) :
    (l.map f).find? (fun o => o.uuid == u) =
      Option.map f (l.find? fun o => o.uuid == u) := by
  rw [List.find?_map]
  have hp : ((fun o : Order => o.uuid == u) ∘ f) = fun o : Order => o.uuid == u := by
    funext o
    simp [Function.comp, hf]
  rw [hp]

/-- change_state updates exactly the looked-up order, via set_state. -/
theorem change_state_find (om : OrderManager) (u : Nat) (s : OrderState)
    (ts : Nat) (o : Order) (h : om.find_order u = some o) :
    (om.change_state u s ts).find_order u = some (o.set_state s ts) := by
  have huuid : o.uuid = u := by simpa using List.find?_some h
  have hf : ∀ o' : Order,
      ((if o'.uuid = u then o'.set_state s ts else o').uuid) = o'.uuid := by
    intro o'
    by_cases hc : o'.uuid = u
    · simp [hc, Order.set_state]
    · simp [hc]
  simp only [OrderManager.find_order, OrderManager.change_state] at h ⊢
  rw [find_order_map _ hf om.orders u, h]
  simp [huuid]

/-! Reproduction lemmas: the modelled operations replayed on the
notebook inputs return exactly the recorded notebook outputs. -/

/-- Replay of examples.order.ipynb: after add_fill of 75 at 49.9 with
commission minus 0.75 the recorded Order.print shows fill_price 49.9,
fill_qty 75, commission minus 0.75, booked None, closed False. -/
theorem add_fill_matches_order_notebook :
    oC9f.fill_price = 499/10 ∧ oC9f.fill_quantity = 75 ∧
    oC9f.commission = -3/4 ∧ oC9f.booked = none ∧ oC9f.closed = false := by
  refine ⟨?_, rfl, ?_, rfl, rfl⟩ <;>
    · simp only [oC9f, oC9, Order.add_fill, Order.make]
      norm_num

/-- Replay of examples.order.ipynb: assigning the state property three
times yields the recorded four-row state_df CREATED, STAGED, SENT,
LIVE, although the STAGED to SENT assignment is not a permitted edge
of spec section 4.1. -/
theorem state_setter_matches_order_notebook :
    (((oT.set_state .STAGED 1).set_state .SENT 2).set_state .LIVE 3).state_df =
      [(0, .CREATED), (1, .STAGED), (2, .SENT), (3, .LIVE)] ∧
    permitted_edge .STAGED .SENT = false := by
  decide

/-- Replay of the position-manager notebook trade entries: buy 100 at
50, then a booked order fill of buy 100 at 100 with commission minus
1, gives the recorded row with buy_quantity 200, buy_avg_price 75 and
commission minus 1. -/
theorem enter_trade_matches_notebook :
    ((Position.init "strategy-id" "stock" "test.sym.9").enter_trade .buy 100 50
        0).enter_trade .buy 100 100 (-1) = row9 := by
  simp only [row9, Position.enter_trade, Position.init, Position.mk.injEq]
  norm_num

/-- Replay of the position-manager notebook booking: applying the
filled sell order's accumulated fills gives the recorded row with
sell_quantity 200, sell_avg_price 55.5 and commission minus 2. -/
theorem book_matches_notebook :
    (Position.init "strat-id" "stock" "test.sym.10").enter_trade_from_order o10f =
      row10 := by
  simp only [row10, Position.enter_trade_from_order, Position.enter_trade,
    Position.init, o10f, o10, Order.add_fill, Order.make, Position.mk.injEq]
  norm_num

/-- Replay of the position-manager notebook update_pnl at current
prices 64.94 and 51.89 with prior closes 67.98 and 49.51: the model
reproduces every recorded PnL cell of both rows, including buy_pnl
minus 1404 (not minus 2012) and position_pnl minus 608 (not 0) on
test.sym.9, and sell_pnl 1198 with position_pnl minus 476 on
test.sym.10. -/
theorem update_pnl_matches_notebook :
    row9post.buy_pnl = -1404 ∧ row9post.sell_pnl = 0 ∧
    row9post.trade_pnl = -1404 ∧ row9post.position_pnl = -608 ∧
    row9post.gross_pnl = -2012 ∧ row9post.net_pnl = -2013 ∧
    row10post.buy_pnl = 0 ∧ row10post.sell_pnl = 1198 ∧
    row10post.trade_pnl = 1198 ∧ row10post.position_pnl = -476 ∧
    row10post.gross_pnl = 722 ∧ row10post.net_pnl = 720 := by
  refine ⟨?_, ?_, ?_, ?_, ?_, ?_, ?_, ?_, ?_, ?_, ?_, ?_⟩ <;>
    · simp only [row9post, row10post, row9, row10, update_pnl_row,
        Position.current_position, Position.init]
      norm_num

/-! Claim theorems. -/

/-- C10: assigning the Order.state property performs no transition
validation: for every order in any state and every allowable target
state the assignment succeeds, sets the state and appends the
(timestamp, state) row to state_df, with no edge condition at all. -/
theorem c10_state_property_no_validation (o : Order) (s : OrderState) (ts : Nat) :
    (o.set_state s ts).state = s ∧
    (o.set_state s ts).state_df = o.state_df ++ [(ts, s)] :=
  ⟨rfl, rfl⟩

/-- C1 counterexample: replaying the position-manager notebook,
change_state moves a CREATED order straight to FILLED even though
CREATED to FILLED is not a permitted edge of spec section 4.1, so
change_state neither fails on the non-edge nor leaves the state
unchanged. -/
theorem c1_change_state_counterexample :
    permitted_edge .CREATED .FILLED = false ∧
    (om10.find_order 1).map Order.state = some .CREATED ∧
    ((om10.change_state 1 .FILLED 7).find_order 1).map Order.state =
      some .FILLED :=
  ⟨rfl, rfl, rfl⟩

/-- C1 amended: OrderManager.change_state performs the requested state
change for every allowable target state, with no validation against
the section 4.1 edge list: the stored order gets the new state and
the appended history row. -/
theorem c1_change_state_no_edge_validation (om : OrderManager) (u : Nat)
    (s : OrderState) (ts : Nat) (o : Order) (h : om.find_order u = some o) :
    (om.change_state u s ts).find_order u = some (o.set_state s ts) ∧
    (o.set_state s ts).state = s ∧
    (o.set_state s ts).state_df = o.state_df ++ [(ts, s)] :=
  ⟨change_state_find om u s ts o h, rfl, rfl⟩

/-- C1 witness: the amended theorem applied to the notebook order for
the permitted CREATED to STAGED edge. -/
theorem c1_change_state_no_edge_validation_witness :
    om10.find_order 1 = some o10f ∧
    ((om10.change_state 1 .STAGED 3).find_order 1 = some (o10f.set_state .STAGED 3) ∧
     (o10f.set_state .STAGED 3).state = .STAGED ∧
     (o10f.set_state .STAGED 3).state_df = o10f.state_df ++ [(3, .STAGED)]) :=
  ⟨rfl, c1_change_state_no_edge_validation om10 1 .STAGED 3 o10f rfl⟩

/-- C2 counterexample: replaying the position-manager notebook, after
change_state to FILLED the order sits in closed_orders_df but its
closed attribute is still false, exactly as the recorded
closed_orders_df shows, contradicting the claim that a state change
sets closed to true for FILLED. -/
theorem c2_closed_flag_counterexample :
    ((om10.change_state 1 .FILLED 7).find_order 1).map Order.state =
      some .FILLED ∧
    ((om10.change_state 1 .FILLED 7).find_order 1).map Order.closed =
      some false ∧
    (om10.change_state 1 .FILLED 7).closed_orders_df =
      [o10f.set_state .FILLED 7] :=
  ⟨rfl, rfl, rfl⟩

/-- C2 amended: a state change leaves the order's closed attribute
unchanged (false in the recorded runs); the open/closed partition is
instead determined by the state group, so after change_state the
order is listed by closed_orders_df exactly when the new state is one
of RISK_REJECTED, REJECTED, FILLED, CANCELED. -/
theorem c2_partition_by_state_group (om : OrderManager) (u : Nat)
    (s : OrderState) (ts : Nat) (o : Order) (h : om.find_order u = some o) :
    (om.change_state u s ts).find_order u = some (o.set_state s ts) ∧
    (o.set_state s ts).closed = o.closed ∧
    (o.set_state s ts ∈ (om.change_state u s ts).closed_orders_df ↔
      state_group_closed s = true) := by
  have huuid : o.uuid = u := by simpa using List.find?_some h
  refine ⟨change_state_find om u s ts o h, rfl, ?_⟩
  have hmem : o.set_state s ts ∈ (om.change_state u s ts).orders := by
    have ho : o ∈ om.orders := List.mem_of_find?_eq_some h
    have : (if o.uuid = u then o.set_state s ts else o) ∈
        om.orders.map fun o' => if o'.uuid = u then o'.set_state s ts else o' :=
      List.mem_map.2 ⟨o, ho, rfl⟩
    simpa [OrderManager.change_state, huuid] using this
  constructor
  · intro hin
    exact (List.mem_filter.1 hin).2
  · intro hs
    exact List.mem_filter.2 ⟨hmem, hs⟩

/-- C2 witness: the amended theorem applied to the notebook order and
the FILLED target state. -/
theorem c2_partition_by_state_group_witness :
    om10.find_order 1 = some o10f ∧
    ((om10.change_state 1 .FILLED 7).find_order 1 = some (o10f.set_state .FILLED 7) ∧
     (o10f.set_state .FILLED 7).closed = o10f.closed ∧
     (o10f.set_state .FILLED 7 ∈ (om10.change_state 1 .FILLED 7).closed_orders_df ↔
       state_group_closed .FILLED = true)) :=
  ⟨rfl, c2_partition_by_state_group om10 1 .FILLED 7 o10f rfl⟩

/-- C9 counterexample: replaying examples.order.ipynb, after the first
add_fill the order holds one fill of quantity 75 yet its booked
attribute is still none, not false, exactly as the recorded
Order.print shows. -/
theorem c9_booked_counterexample :
    oC9f.booked = none ∧ oC9f.fills.length = 1 ∧ oC9f.fill_quantity = 75 :=
  ⟨rfl, rfl, rfl⟩

/-- C9 amended: add_fill leaves the order-level booked attribute
unchanged (so it stays none through the first fill) and appends a
fill row whose own booked flag is false; an order's booked attribute
moves only through OrderManager.set_booked, and book_fills flips
every closed order with booked false to booked true once the
PositionManager has applied it. -/
theorem c9_booked_lifecycle (o : Order) (fid ts bt qty : Nat)
    (price comm : ℚ) (pm : PositionManager) (om : OrderManager) (o2 : Order)
    (h2 : o2 ∈ om.orders) (hc : state_group_closed o2.state = true)
    (hb : o2.booked = some false) :
    (o.add_fill fid ts bt qty price comm).booked = o.booked ∧
    (o.add_fill fid ts bt qty price comm).fills =
      o.fills ++ [⟨fid, ts, bt, qty, price, comm, false⟩] ∧
    { o2 with booked := some true } ∈ (book_fills pm om).2.orders := by
  refine ⟨rfl, rfl, ?_⟩
  have : (if state_group_closed o2.state ∧ o2.booked = some false then
      { o2 with booked := some true } else o2) ∈
      om.orders.map fun o' =>
        if state_group_closed o'.state ∧ o'.booked = some false then
          { o' with booked := some true } else o' :=
    List.mem_map.2 ⟨o2, h2, rfl⟩
  simpa [book_fills, hc, hb] using this

/-- C9 witness: the amended theorem applied to the examples.order
order and the booked-false FILLED order of the position-manager
notebook. -/
theorem c9_booked_lifecycle_witness :
    o10booked ∈ omB.orders ∧ state_group_closed o10booked.state = true ∧
    o10booked.booked = some false ∧
    ((oC9.add_fill 1 10 11 75 (499/10) (-3/4)).booked = oC9.booked ∧
     (oC9.add_fill 1 10 11 75 (499/10) (-3/4)).fills =
       oC9.fills ++ [⟨1, 10, 11, 75, 499/10, -3/4, false⟩] ∧
     { o10booked with booked := some true } ∈ (book_fills ⟨[]⟩ omB).2.orders) :=
  ⟨List.mem_of_find?_eq_some
     (show List.find? (fun o : Order => o.uuid == 1) omB.orders =
       some o10booked from rfl),
   rfl, rfl,
   c9_booked_lifecycle oC9 1 10 11 75 (499/10) (-3/4) ⟨[]⟩ omB o10booked
     (List.mem_of_find?_eq_some
       (show List.find? (fun o : Order => o.uuid == 1) omB.orders =
         some o10booked from rfl))
     rfl rfl⟩

/-- C3 counterexample: on the replayed notebook rows the recorded
buy_pnl of test.sym.9 is minus 1404, not the minus 2012 the claim's
current-price formula gives, and the recorded sell_pnl of test.sym.10
is 1198, not the 722 the claim's formula gives. -/
theorem c3_trade_pnl_counterexample :
    row9post.buy_pnl = -1404 ∧
    ((3247/50 : ℚ) - row9.buy_avg_price) * row9.buy_quantity = -2012 ∧
    row9post.buy_pnl ≠ ((3247/50 : ℚ) - row9.buy_avg_price) * row9.buy_quantity ∧
    row10post.sell_pnl = 1198 ∧
    (row10.sell_avg_price - (5189/100 : ℚ)) * row10.sell_quantity = 722 ∧
    row10post.sell_pnl ≠
      (row10.sell_avg_price - (5189/100 : ℚ)) * row10.sell_quantity := by
  refine ⟨?_, ?_, ?_, ?_, ?_, ?_⟩ <;>
    · simp only [row9post, row10post, row9, row10, update_pnl_row,
        Position.current_position, Position.init]
      norm_num

/-- C3 amended: after update_pnl the trade legs are marked against the
prior close price, not the current price: for every row of the
updated table, buy_pnl equals (prior_close_price minus buy_avg_price)
times buy_quantity and sell_pnl equals (sell_avg_price minus
prior_close_price) times sell_quantity. -/
theorem c3_trade_pnl_vs_prior_close (currentOf priorOf : String → String → ℚ)
    (pm : PositionManager) (p : Position)
    (h : p ∈ (pm.update_pnl currentOf priorOf).rows) :
    p.buy_pnl = (p.prior_close_price - p.buy_avg_price) * p.buy_quantity ∧
    p.sell_pnl = (p.sell_avg_price - p.prior_close_price) * p.sell_quantity := by
  simp only [PositionManager.update_pnl] at h
  obtain ⟨q, hq, rfl⟩ := List.mem_map.1 h
  exact ⟨rfl, rfl⟩

/-- C3 witness: the amended theorem applied to the notebook's
test.sym.9 row. -/
theorem c3_trade_pnl_vs_prior_close_witness :
    row9post ∈ (pmNB.update_pnl currentNB priorNB).rows ∧
    (row9post.buy_pnl =
      (row9post.prior_close_price - row9post.buy_avg_price) * row9post.buy_quantity ∧
     row9post.sell_pnl =
      (row9post.sell_avg_price - row9post.prior_close_price) * row9post.sell_quantity) := by
  have hlist : (pmNB.update_pnl currentNB priorNB).rows = [row9post, row10post] := rfl
  have hmem : row9post ∈ (pmNB.update_pnl currentNB priorNB).rows := by
    rw [hlist]
    exact List.mem_cons_self _ _
  exact ⟨hmem, c3_trade_pnl_vs_prior_close currentNB priorNB pmNB row9post hmem⟩

/-- C4 counterexample: on the replayed notebook row the recorded
position_pnl of test.sym.9 is minus 608, while the claim's formula on
start_position (which is 0) gives 0. -/
theorem c4_position_pnl_counterexample :
    row9post.position_pnl = -608 ∧
    ((3247/50 : ℚ) - (3399/50 : ℚ)) * row9.start_position = 0 ∧
    row9post.position_pnl ≠
      ((3247/50 : ℚ) - (3399/50 : ℚ)) * row9.start_position := by
  refine ⟨?_, ?_, ?_⟩ <;>
    · simp only [row9post, row9, update_pnl_row, Position.current_position,
        Position.init]
      norm_num

/-- C4 amended: after update_pnl, position_pnl equals the price move
from prior close to current times the full current position
(start_position plus buys minus sells), not times start_position
alone; the two agree only when the session's net trading is zero. -/
theorem c4_position_pnl_on_current_position
    (currentOf priorOf : String → String → ℚ) (pm : PositionManager)
    (p : Position) (h : p ∈ (pm.update_pnl currentOf priorOf).rows) :
    p.position_pnl = (p.current_price - p.prior_close_price) * p.current_position := by
  simp only [PositionManager.update_pnl] at h
  obtain ⟨q, hq, rfl⟩ := List.mem_map.1 h
  rfl

/-- C4 witness: the amended theorem applied to the notebook's
test.sym.9 row. -/
theorem c4_position_pnl_on_current_position_witness :
    row9post ∈ (pmNB.update_pnl currentNB priorNB).rows ∧
    row9post.position_pnl =
      (row9post.current_price - row9post.prior_close_price) * row9post.current_position := by
  have hlist : (pmNB.update_pnl currentNB priorNB).rows = [row9post, row10post] := rfl
  have hmem : row9post ∈ (pmNB.update_pnl currentNB priorNB).rows := by
    rw [hlist]
    exact List.mem_cons_self _ _
  exact ⟨hmem, c4_position_pnl_on_current_position currentNB priorNB pmNB row9post hmem⟩

/-- C5: for every position row after update_pnl the PnL identity
holds: net_pnl equals buy_pnl plus sell_pnl plus position_pnl plus
commission, with gross_pnl the sum of trade_pnl and position_pnl and
trade_pnl the sum of the two trade legs. -/
theorem c5_net_pnl_identity (currentOf priorOf : String → String → ℚ)
    (pm : PositionManager) (p : Position)
    (h : p ∈ (pm.update_pnl currentOf priorOf).rows) :
    p.net_pnl = p.buy_pnl + p.sell_pnl + p.position_pnl + p.commission ∧
    p.gross_pnl = p.trade_pnl + p.position_pnl ∧
    p.trade_pnl = p.buy_pnl + p.sell_pnl := by
  simp only [PositionManager.update_pnl] at h
  obtain ⟨q, hq, rfl⟩ := List.mem_map.1 h
  exact ⟨rfl, rfl, rfl⟩

/-- C5 witness: the identity on the notebook's test.sym.10 row, where
net_pnl 720 equals 0 plus 1198 minus 476 minus 2. -/
theorem c5_net_pnl_identity_witness :
    row10post ∈ (pmNB.update_pnl currentNB priorNB).rows ∧
    (row10post.net_pnl =
      row10post.buy_pnl + row10post.sell_pnl + row10post.position_pnl +
        row10post.commission ∧
     row10post.gross_pnl = row10post.trade_pnl + row10post.position_pnl ∧
     row10post.trade_pnl = row10post.buy_pnl + row10post.sell_pnl) := by
  have hlist : (pmNB.update_pnl currentNB priorNB).rows = [row9post, row10post] := rfl
  have hmem : row10post ∈ (pmNB.update_pnl currentNB priorNB).rows := by
    rw [hlist]
    exact List.mem_cons_of_mem _ (List.mem_cons_self _ _)
  exact ⟨hmem, c5_net_pnl_identity currentNB priorNB pmNB row10post hmem⟩

/-- Staging the created orders of bound strategies introduces no order
originated by the portfolio when none was there before. -/
theorem stage_created_no_portfolio_orders (port : Portfolio) (ts : Nat)
    (om : OrderManager) (h : ∀ o ∈ om.orders, o.originator_uuid ≠ port.uuid) :
    (stage_created port ts om).orders.filter
      (fun x => x.originator_uuid == port.uuid) = [] := by
  apply List.filter_eq_nil_iff.2
  intro a ha
  simp only [stage_created, List.mem_map] at ha
  obtain ⟨x, hx, rfl⟩ := ha
  by_cases hc : x.state = .CREATED ∧ x.strategy_id ∈ port.strategy_ids
  · simp [hc, tag_portfolio, Order.set_state, h x hx]
  · simp [hc, h x hx]

/-- After staging, no order of a bound strategy is left in CREATED. -/
theorem stage_created_no_created (port : Portfolio) (ts : Nat)
    (om : OrderManager)
    (hb : ∀ o ∈ om.orders, o.state = .CREATED → o.strategy_id ∈ port.strategy_ids) :
    (stage_created port ts om).orders.filter
      (fun x => x.state == OrderState.CREATED) = [] := by
  apply List.filter_eq_nil_iff.2
  intro a ha
  simp only [stage_created, List.mem_map] at ha
  obtain ⟨x, hx, rfl⟩ := ha
  by_cases hc : x.state = .CREATED ∧ x.strategy_id ∈ port.strategy_ids
  · simp [hc, tag_portfolio, Order.set_state]
  · have hnc : x.state ≠ .CREATED := fun hcr => hc ⟨hcr, hb x hx hcr⟩
    simp [hc, hnc]

/-- An order materialised from an intent is STAGED and originated by
the portfolio. -/
theorem intent_order_staged (port : Portfolio)
    (posOf : String → String → String → ℤ) (priceOf : Intent → ℚ)
    (ts base : Nat) (i : Intent) (o : Order)
    (h : intent_order port posOf priceOf ts base i = some o) :
    o.state = .STAGED ∧ o.originator_uuid = port.uuid := by
  by_cases hd : i.target - posOf i.strategy_id i.product_type i.symbol = 0
  · simp [intent_order, hd] at h
  · simp only [intent_order, if_neg hd, Option.some.injEq] at h
    subst h
    exact ⟨rfl, rfl⟩

/-- Materialising intents never introduces a CREATED order. -/
theorem insert_intents_no_created (port : Portfolio)
    (posOf : String → String → String → ℤ) (priceOf : Intent → ℚ) (ts : Nat) :
    ∀ (intents : List Intent) (base : Nat) (om : OrderManager),
      om.orders.filter (fun x => x.state == OrderState.CREATED) = [] →
      (insert_intents port posOf priceOf ts base intents om).orders.filter
        (fun x => x.state == OrderState.CREATED) = [] := by
  intro intents
  induction intents with
  | nil =>
    intro base om h
    simpa [insert_intents] using h
  | cons i rest ih =>
    intro base om h
    cases hio : intent_order port posOf priceOf ts base i with
    | none =>
      simpa [insert_intents, hio] using ih (base + 1) om h
    | some o =>
      have hst := (intent_order_staged port posOf priceOf ts base i o hio).1
      have h2 : (OrderManager.mk (om.orders ++ [o])).orders.filter
          (fun x => x.state == OrderState.CREATED) = [] := by
        simp [List.filter_append, h, hst]
      simpa [insert_intents, hio] using ih (base + 1) _ h2

/-- C7: after portfolio.process_orders no order is left in state
CREATED: every strategy-authored CREATED order of a bound strategy is
transitioned to STAGED and every intent-derived order is inserted
already STAGED, so the CREATED orders list is empty. -/
theorem c7_no_created_after_process_orders (port : Portfolio)
    (posOf : String → String → String → ℤ) (priceOf : Intent → ℚ)
    (intents : List Intent) (ts base : Nat) (om : OrderManager)
    (hb : ∀ o ∈ om.orders, o.state = .CREATED → o.strategy_id ∈ port.strategy_ids) :
    (port.process_orders posOf priceOf intents ts base om).orders_list_state
      .CREATED = [] := by
  simp only [Portfolio.process_orders, OrderManager.orders_list_state]
  exact insert_intents_no_created port posOf priceOf ts intents base _
    (stage_created_no_created port ts om hb)

/-- C7 witness: the portfolio-notebook session, two strategy orders and
one intent, leaves no CREATED order. -/
theorem c7_no_created_after_process_orders_witness :
    (∀ o ∈ omNB.orders, o.state = .CREATED → o.strategy_id ∈ portNB.strategy_ids) ∧
    (portNB.process_orders posZero priceNB [intentNB] 1 100 omNB).orders_list_state
      .CREATED = [] :=
  ⟨by decide,
   c7_no_created_after_process_orders portNB posZero priceNB [intentNB] 1 100 omNB
     (by decide)⟩

/-- C6: one pending intent produces no order when the target equals the
current position, and otherwise exactly one new staged LIMIT order
originated by the portfolio, with quantity the absolute delta and
side buy exactly when the delta is positive. -/
theorem c6_intent_to_order (port : Portfolio)
    (posOf : String → String → String → ℤ) (priceOf : Intent → ℚ)
    (i : Intent) (ts base : Nat) (om : OrderManager)
    (hnone : ∀ o ∈ om.orders, o.originator_uuid ≠ port.uuid) :
    (i.target - posOf i.strategy_id i.product_type i.symbol = 0 →
      (port.process_orders posOf priceOf [i] ts base om).orders.filter
        (fun x => x.originator_uuid == port.uuid) = []) ∧
    (i.target - posOf i.strategy_id i.product_type i.symbol ≠ 0 →
      ∃ o, (port.process_orders posOf priceOf [i] ts base om).orders.filter
          (fun x => x.originator_uuid == port.uuid) = [o] ∧
        o.state = .STAGED ∧ o.order_type = .LIMIT ∧
        o.originator_uuid = port.uuid ∧
        o.product_type = i.product_type ∧ o.symbol = i.symbol ∧
        o.quantity = (i.target - posOf i.strategy_id i.product_type i.symbol).natAbs ∧
        o.buy_sell = (if 0 < i.target - posOf i.strategy_id i.product_type i.symbol
          then Side.buy else Side.sell)) := by
  have hstage := stage_created_no_portfolio_orders port ts om hnone
  constructor
  · intro hd
    have hio : intent_order port posOf priceOf ts base i = none := by
      simp [intent_order, hd]
    simp only [Portfolio.process_orders, insert_intents, hio]
    exact hstage
  · intro hd
    refine ⟨tag_portfolio port
      ((Order.make base port.uuid ("portfolio." ++ port.portfolio_id) 0
          i.strategy_id i.product_type i.symbol
          (if 0 < i.target - posOf i.strategy_id i.product_type i.symbol
            then Side.buy else Side.sell)
          (i.target - posOf i.strategy_id i.product_type i.symbol).natAbs
          .LIMIT (priceOf i) ts).set_state .STAGED ts),
      ?_, rfl, rfl, rfl, rfl, rfl, rfl, rfl⟩
    have hio : intent_order port posOf priceOf ts base i = some
        (tag_portfolio port
          ((Order.make base port.uuid ("portfolio." ++ port.portfolio_id) 0
              i.strategy_id i.product_type i.symbol
              (if 0 < i.target - posOf i.strategy_id i.product_type i.symbol
                then Side.buy else Side.sell)
              (i.target - posOf i.strategy_id i.product_type i.symbol).natAbs
              .LIMIT (priceOf i) ts).set_state .STAGED ts)) := by
      simp only [intent_order, if_neg hd]
    simp only [Portfolio.process_orders, insert_intents, hio]
    rw [List.filter_append, hstage]
    simp [tag_portfolio, Order.set_state, Order.make]

/-- C6 witness: the portfolio-notebook intent, target minus 60 with
current position 0, yields exactly one staged sell order of quantity
60 originated by the portfolio. -/
theorem c6_intent_to_order_witness :
    (∀ o ∈ omNB.orders, o.originator_uuid ≠ portNB.uuid) ∧
    ((intentNB.target - posZero intentNB.strategy_id intentNB.product_type
        intentNB.symbol = 0 →
      (portNB.process_orders posZero priceNB [intentNB] 1 100 omNB).orders.filter
        (fun x => x.originator_uuid == portNB.uuid) = []) ∧
     (intentNB.target - posZero intentNB.strategy_id intentNB.product_type
        intentNB.symbol ≠ 0 →
      ∃ o, (portNB.process_orders posZero priceNB [intentNB] 1 100 omNB).orders.filter
          (fun x => x.originator_uuid == portNB.uuid) = [o] ∧
        o.state = .STAGED ∧ o.order_type = .LIMIT ∧
        o.originator_uuid = portNB.uuid ∧
        o.product_type = intentNB.product_type ∧ o.symbol = intentNB.symbol ∧
        o.quantity = (intentNB.target - posZero intentNB.strategy_id
          intentNB.product_type intentNB.symbol).natAbs ∧
        o.buy_sell = (if 0 < intentNB.target - posZero intentNB.strategy_id
            intentNB.product_type intentNB.symbol
          then Side.buy else Side.sell))) :=
  ⟨by decide,
   c6_intent_to_order portNB posZero priceNB intentNB 1 100 omNB (by decide)⟩

/-- Mapping a uuid-preserving function over a paper-order book commutes
with lookup by uuid. -/
theorem find_paper_map (g : PaperOrder → PaperOrder)
    (hg : ∀ po, (g po).uuid = po.uuid) (l : List PaperOrder) (u : Nat) :
    (l.map g).find? (fun po => po.uuid == u) =
      Option.map g (l.find? fun po => po.uuid == u) := by
  rw [List.find?_map]
  have hp : ((fun po : PaperOrder => po.uuid == u) ∘ g) =
      fun po : PaperOrder => po.uuid == u := by
    funext po
    simp [Function.comp, hg]
  rw [hp]

/-- The matching step preserves the paper order's uuid. -/
theorem admit_and_match_uuid (mult : ℚ) (d : Bar) (po : PaperOrder) :
    (admit_and_match mult d po).uuid = po.uuid := rfl

/-- The broker's per-order fill processing preserves the uuid. -/
theorem broker_fill_order_uuid (t : Nat) (book : List PaperOrder) (o : Order) :
    (broker_fill_order t book o).uuid = o.uuid := by
  unfold broker_fill_order
  by_cases h1 : o.state = .SENT ∨ o.state = .LIVE ∨ o.state = .PARTIALLY_FILLED
  · simp only [if_pos h1]
    cases hf : book.find? fun po => po.uuid == o.uuid with
    | none => rfl
    | some po =>
      by_cases h2 : po.admitted = true
      · simp [hf, h2, Order.set_state]
      · simp [hf, h2]
  · simp [h1]

/-- Submission to the exchange: the book entry created for the first
order with a given uuid among the RISK_ACCEPTED orders is its paper
record, for some exchange order id. -/
theorem send_papers_find (t u : Nat) :
    ∀ (l : List Order) (o : Order),
      l.find? (fun x => x.uuid == u) = some o → o.state = .RISK_ACCEPTED →
      ∀ eid, ∃ e, (send_papers t eid l).find? (fun po => po.uuid == u) =
        some (to_paper t e o) := by
  intro l
  induction l with
  | nil => intro o h; simp at h
  | cons a rest ih =>
    intro o h hra eid
    by_cases hau : (a.uuid == u) = true
    · rw [List.find?_cons_of_pos (p := fun x => x.uuid == u) rest hau] at h
      obtain rfl : a = o := by simpa using h
      refine ⟨eid, ?_⟩
      simp only [send_papers, if_pos hra]
      exact List.find?_cons_of_pos (p := fun po : PaperOrder => po.uuid == u) _ hau
    · rw [List.find?_cons_of_neg (p := fun x => x.uuid == u) rest hau] at h
      by_cases hst : a.state = .RISK_ACCEPTED
      · obtain ⟨e, he⟩ := ih o h hra (eid + 1)
        refine ⟨e, ?_⟩
        simp only [send_papers, if_pos hst]
        rw [List.find?_cons_of_neg (p := fun po : PaperOrder => po.uuid == u) _ hau]
        exact he
      · obtain ⟨e, he⟩ := ih o h hra eid
        refine ⟨e, ?_⟩
        simp only [send_papers, if_neg hst]
        exact he

/-- Every paper record created at submission time is unadmitted,
unfilled, and stamped with the submission bar. -/
theorem send_papers_mem (t : Nat) :
    ∀ (eid : Nat) (l : List Order) (po : PaperOrder),
      po ∈ send_papers t eid l →
      po.admitted = false ∧ po.fill_quantity = 0 ∧ po.arrival_bar = t := by
  intro eid l
  induction l generalizing eid with
  | nil => intro po h; simp [send_papers] at h
  | cons a rest ih =>
    intro po h
    by_cases hst : a.state = .RISK_ACCEPTED
    · simp only [send_papers, if_pos hst] at h
      rcases List.mem_cons.1 h with rfl | h2
      · exact ⟨rfl, rfl, rfl⟩
      · exact ih (eid + 1) po h2
    · simp only [send_papers, if_neg hst] at h
      exact ih eid po h

/-- C8: an order submitted to the exchange during the processing of bar
t is not matched within that bar: at the end of bar t its OMS state
is still SENT and its exchange record is unadmitted and unfilled;
on the next bar the exchange admits it and the order leaves SENT for
LIVE, PARTIALLY_FILLED or FILLED. -/
theorem c8_same_bar_orders_stay_sent (mult : ℚ) (sys : ExchSys) (u t : Nat)
    (d d2 : Bar) (o : Order)
    (hfind : sys.oms.find_order u = some o)
    (hra : o.state = .RISK_ACCEPTED)
    (hbook : ∀ po ∈ sys.book, po.uuid ≠ u) :
    ((bar_step mult t d sys).oms.find_order u).map Order.state = some .SENT ∧
    (∀ po ∈ (bar_step mult t d sys).book, po.uuid = u →
      po.admitted = false ∧ po.fill_quantity = 0) ∧
    (((bar_step mult (t+1) d2 (bar_step mult t d sys)).oms.find_order u).map
        Order.state = some .LIVE ∨
     ((bar_step mult (t+1) d2 (bar_step mult t d sys)).oms.find_order u).map
        Order.state = some .PARTIALLY_FILLED ∨
     ((bar_step mult (t+1) d2 (bar_step mult t d sys)).oms.find_order u).map
        Order.state = some .FILLED) := by
  have huuid : o.uuid = u := by simpa using List.find?_some hfind
  have hfind0 : sys.oms.orders.find? (fun x => x.uuid == u) = some o := hfind
  -- the send step of bar t
  have hf0 : ∀ s' : Nat, ∀ o' : Order,
      ((if o'.state = .RISK_ACCEPTED then o'.set_state .SENT s' else o').uuid) =
        o'.uuid := by
    intro s' o'
    by_cases hc : o'.state = .RISK_ACCEPTED
    · simp [hc, Order.set_state]
    · simp [hc]
  have hsend1 : (send_orders t sys).oms.orders.find? (fun x => x.uuid == u) =
      some (o.set_state .SENT t) := by
    simp only [send_orders]
    rw [find_order_map _ (hf0 t) sys.oms.orders u, hfind0]
    simp [hra]
  -- the paper record after the exchange step of bar t
  have hg : ∀ po : PaperOrder,
      ((if po.arrival_bar < t then admit_and_match mult d po else po).uuid) =
        po.uuid := by
    intro po
    by_cases hc : po.arrival_bar < t
    · simp [hc, admit_and_match_uuid]
    · simp [hc]
  obtain ⟨e, hpe⟩ := send_papers_find t u sys.oms.orders o hfind0 hra sys.next_id
  have hbook1 : (sys.book ++ send_papers t sys.next_id sys.oms.orders).find?
      (fun po => po.uuid == u) = some (to_paper t e o) := by
    rw [List.find?_append]
    have hnone : sys.book.find? (fun po => po.uuid == u) = none :=
      List.find?_eq_none.2 fun po hpo => by simp [hbook po hpo]
    rw [hnone, hpe]
    rfl
  have hbook2 : (bar_step mult t d sys).book.find? (fun po => po.uuid == u) =
      some (to_paper t e o) := by
    simp only [bar_step, send_orders, exchange_process]
    rw [find_paper_map _ hg _ u, hbook1]
    simp [to_paper]
  -- the OMS at the end of bar t
  have ho1 : broker_fill_order t (bar_step mult t d sys).book
      (o.set_state .SENT t) = o.set_state .SENT t := by
    unfold broker_fill_order
    have hcond : (o.set_state .SENT t).state = .SENT ∨
        (o.set_state .SENT t).state = .LIVE ∨
        (o.set_state .SENT t).state = .PARTIALLY_FILLED := Or.inl rfl
    rw [if_pos hcond]
    have hpred : (fun po : PaperOrder => po.uuid == (o.set_state .SENT t).uuid) =
        fun po : PaperOrder => po.uuid == u := by
      funext po
      simp [Order.set_state, huuid]
    rw [hpred, hbook2]
    rfl
  have homs1 : (bar_step mult t d sys).oms.orders.find? (fun x => x.uuid == u) =
      some (o.set_state .SENT t) := by
    have hbb : (bar_step mult t d sys).oms =
        broker_process_fills t (bar_step mult t d sys).book
          (send_orders t sys).oms := rfl
    rw [hbb]
    simp only [broker_process_fills]
    rw [find_order_map _ (broker_fill_order_uuid t (bar_step mult t d sys).book) _ u,
      hsend1]
    simp [ho1]
  refine ⟨?_, ?_, ?_⟩
  · show ((bar_step mult t d sys).oms.find_order u).map Order.state = some .SENT
    rw [show (bar_step mult t d sys).oms.find_order u =
      some (o.set_state .SENT t) from homs1]
    rfl
  · -- every uuid-u paper record at the end of bar t is untouched
    intro po hpo hup
    have hbb : (bar_step mult t d sys).book = (sys.book ++
        send_papers t sys.next_id sys.oms.orders).map
        (fun po => if po.arrival_bar < t then admit_and_match mult d po else po) := rfl
    rw [hbb] at hpo
    obtain ⟨po0, hpo0, rfl⟩ := List.mem_map.1 hpo
    have hu0 : po0.uuid = u := by rw [← hg po0, hup]
    rcases List.mem_append.1 hpo0 with hin | hin
    · exact absurd hu0 (hbook po0 hin)
    · obtain ⟨hadm, hfq, harr⟩ := send_papers_mem t sys.next_id sys.oms.orders po0 hin
      have hnl : ¬po0.arrival_bar < t := by rw [harr]; exact lt_irrefl t
      rw [if_neg hnl]
      exact ⟨hadm, hfq⟩
  · -- bar t+1: the counterpart is admitted and the order leaves SENT
    set sys1 := bar_step mult t d sys with hsys1
    have hsend2 : (send_orders (t+1) sys1).oms.orders.find?
        (fun x => x.uuid == u) = some (o.set_state .SENT t) := by
      simp only [send_orders]
      rw [find_order_map _ (hf0 (t+1)) sys1.oms.orders u, homs1]
      simp [Order.set_state]
    have hg2 : ∀ po : PaperOrder,
        ((if po.arrival_bar < t+1 then admit_and_match mult d2 po else po).uuid) =
          po.uuid := by
      intro po
      by_cases hc : po.arrival_bar < t+1
      · simp [hc, admit_and_match_uuid]
      · simp [hc]
    have hbook3 : (bar_step mult (t+1) d2 sys1).book.find?
        (fun po => po.uuid == u) =
        some (admit_and_match mult d2 (to_paper t e o)) := by
      have hbb : (bar_step mult (t+1) d2 sys1).book = (sys1.book ++
          send_papers (t+1) sys1.next_id sys1.oms.orders).map
          (fun po => if po.arrival_bar < t+1 then admit_and_match mult d2 po else po) := rfl
      rw [hbb, find_paper_map _ hg2 _ u, List.find?_append, hbook2]
      simp [Option.or, to_paper, Nat.lt_succ_self]
    have ho2 : broker_fill_order (t+1) (bar_step mult (t+1) d2 sys1).book
        (o.set_state .SENT t) =
        ({ o.set_state .SENT t with
            fill_quantity := (admit_and_match mult d2 (to_paper t e o)).fill_quantity
          }).set_state
          (if (admit_and_match mult d2 (to_paper t e o)).fill_quantity =
              (o.set_state .SENT t).quantity then .FILLED
           else if 0 < (admit_and_match mult d2 (to_paper t e o)).fill_quantity
            then .PARTIALLY_FILLED else .LIVE) (t+1) := by
      unfold broker_fill_order
      have hcond : (o.set_state .SENT t).state = .SENT ∨
          (o.set_state .SENT t).state = .LIVE ∨
          (o.set_state .SENT t).state = .PARTIALLY_FILLED := Or.inl rfl
      rw [if_pos hcond]
      have hpred : (fun po : PaperOrder =>
          po.uuid == (o.set_state .SENT t).uuid) =
          fun po : PaperOrder => po.uuid == u := by
        funext po
        simp [Order.set_state, huuid]
      rw [hpred, hbook3]
      rfl
    have homs2 : (bar_step mult (t+1) d2 sys1).oms.orders.find?
        (fun x => x.uuid == u) =
        some (broker_fill_order (t+1) (bar_step mult (t+1) d2 sys1).book
          (o.set_state .SENT t)) := by
      have hbb : (bar_step mult (t+1) d2 sys1).oms =
          broker_process_fills (t+1) (bar_step mult (t+1) d2 sys1).book
            (send_orders (t+1) sys1).oms := rfl
      rw [hbb]
      simp only [broker_process_fills]
      rw [find_order_map _
        (broker_fill_order_uuid (t+1) (bar_step mult (t+1) d2 sys1).book) _ u,
        hsend2]
      rfl
    have hstate : ((bar_step mult (t+1) d2 sys1).oms.find_order u).map
        Order.state = some
        (if (admit_and_match mult d2 (to_paper t e o)).fill_quantity =
            (o.set_state .SENT t).quantity then OrderState.FILLED
         else if 0 < (admit_and_match mult d2 (to_paper t e o)).fill_quantity
          then OrderState.PARTIALLY_FILLED else OrderState.LIVE) := by
      show ((bar_step mult (t+1) d2 sys1).oms.orders.find?
        (fun x => x.uuid == u)).map Order.state = _
      rw [homs2, ho2]
      rfl
    rw [hstate]
    by_cases h1 : (admit_and_match mult d2 (to_paper t e o)).fill_quantity =
        (o.set_state .SENT t).quantity
    · right; right; rw [if_pos h1]
    · by_cases h2 : 0 < (admit_and_match mult d2 (to_paper t e o)).fill_quantity
      · right; left; rw [if_neg h1, if_pos h2]
      · left; rw [if_neg h1, if_neg h2]

/-- C8 witness: the theorem applied to a RISK_ACCEPTED limit buy
processed against the bar of end-to-end scenario 1: it ends its
submission bar still SENT with an untouched book entry, and leaves
SENT on the following bar. -/
theorem c8_same_bar_orders_stay_sent_witness :
    sysW.oms.find_order 9 = some oW ∧ oW.state = .RISK_ACCEPTED ∧
    (∀ po ∈ sysW.book, po.uuid ≠ 9) ∧
    (((bar_step 1 5 barW sysW).oms.find_order 9).map Order.state = some .SENT ∧
     (∀ po ∈ (bar_step 1 5 barW sysW).book, po.uuid = 9 →
       po.admitted = false ∧ po.fill_quantity = 0) ∧
     (((bar_step 1 (5+1) barW (bar_step 1 5 barW sysW)).oms.find_order 9).map
         Order.state = some .LIVE ∨
      ((bar_step 1 (5+1) barW (bar_step 1 5 barW sysW)).oms.find_order 9).map
         Order.state = some .PARTIALLY_FILLED ∨
      ((bar_step 1 (5+1) barW (bar_step 1 5 barW sysW)).oms.find_order 9).map
         Order.state = some .FILLED)) :=
  ⟨rfl, rfl, by intro po hpo; simp [sysW] at hpo,
   c8_same_bar_orders_stay_sent 1 sysW 9 5 barW barW oW rfl rfl
     (by intro po hpo; simp [sysW] at hpo)⟩

end Runner
